import Mathlib

/-!
# mjwt-auth: a shallow embedding of the authentication core

The Go package `mjwtauth` (files `jwt.go`, `auth.go`, `hash.go`, `user.go`,
`userrepo.go`) is embedded as Lean functions.

* Go maps (`map[string]interface{}`, `jwt.MapClaims`) are lists of entries with
  `mapSet` for `m[k] = v` and `mapGet` for the lookup; a `range` loop is a fold
  over the entries in whatever order the runtime yields them.
* Go `(value, error)` results are pairs whose error component is an `Option`.
* Collaborators reached through interfaces (repository, signer, customizer)
  and the libraries `golang-jwt/jwt/v5` and `x/crypto/bcrypt` are parameters.
* Effects are explicit: a world state of type `σ` is threaded through every
  collaborator call, and each service operation also reports the list of
  collaborator calls it made.
-/

set_option autoImplicit false

namespace Mjwtauth

/-! ## Values, maps, time and errors -/

/-- Dynamic values stored under `interface{}` in a claim mapping. A number is a
whole number, whether it was stored as an integer or decoded from a token. -/
inductive Value where
  | str (s : String)
  | int (n : Int)
  | bool (b : Bool)
  | null
  deriving DecidableEq, Repr

/-- The entries of a `map[string]interface{}` (also `jwt.MapClaims`). -/
abbrev MapClaims := List (String × Value)

/-- Map lookup `m[k]`; `none` when the key is absent. -/
def mapGet : MapClaims → String → Option Value
  | [], _ => none
  | (k0, v0) :: rest, k => if k0 = k then some v0 else mapGet rest k

/-- Map assignment `m[k] = v`: replaces the entry of `k` or adds one. -/
def mapSet : MapClaims → String → Value → MapClaims
  | [], k, v => [(k, v)]
  | (k0, v0) :: rest, k, v => if k0 = k then (k, v) :: rest else (k0, v0) :: mapSet rest k v

/-- The keys of a map, in entry order. -/
def mapKeys (m : MapClaims) : List String := m.map Prod.fst

/-- A `time.Time`, as nanoseconds since the Unix epoch (an unbounded integer, so
no instant is out of range). -/
structure Time where
  ns : Int
  deriving DecidableEq, Repr

/-- A `time.Duration` is a count of nanoseconds. -/
abbrev Duration := Int

/-- The constant `time.Hour`. -/
def Hour : Duration := 3600 * 1000000000

/-- The method `Time.Add`. -/
def Time.Add (t : Time) (d : Duration) : Time := ⟨t.ns + d⟩

/-- The method `Time.Unix`: whole seconds since the epoch, rounded down. -/
def Time.Unix (t : Time) : Int := t.ns / 1000000000

/-- The sentinel errors of `golang-jwt/jwt/v5` that the parser joins to its messages. -/
inductive JwtSentinel where
  | ErrTokenMalformed
  | ErrTokenUnverifiable
  | ErrTokenSignatureInvalid
  | ErrTokenInvalidClaims
  | ErrTokenExpired
  | ErrTokenNotValidYet
  | ErrInvalidType
  | ErrInvalidKeyType
  deriving DecidableEq, Repr

/-- Go `error` values, told apart by where they were made. Two `errors.New`
values are compared by their message. -/
inductive GoError where
  | errorsNew (msg : String)
  | bcrypt (msg : String)
  | host (msg : String)
  | jwt (msg : String) (kind : JwtSentinel)
  | jwtWrap (msg : String) (kind : JwtSentinel) (cause : GoError)
  deriving DecidableEq, Repr

/-! ## jwt.go -/

/-- The signing methods registered by `golang-jwt/jwt/v5`. -/
inductive SigningMethod where
  | RS256 | RS384 | RS512
  | HS256 | HS384 | HS512
  | ES256 | ES384 | ES512
  | PS256 | PS384 | PS512
  | EdDSA
  | none
  deriving DecidableEq, Repr

/-- The method `SigningMethod.Alg`. -/
def SigningMethod.Alg : SigningMethod → String
  | .RS256 => "RS256" | .RS384 => "RS384" | .RS512 => "RS512"
  | .HS256 => "HS256" | .HS384 => "HS384" | .HS512 => "HS512"
  | .ES256 => "ES256" | .ES384 => "ES384" | .ES512 => "ES512"
  | .PS256 => "PS256" | .PS384 => "PS384" | .PS512 => "PS512"
  | .EdDSA => "EdDSA"
  | .none => "none"

/-- The type assertion `method.(*jwt.SigningMethodRSA)`: it holds for the
methods whose dynamic type is `*SigningMethodRSA`. -/
def SigningMethod.isRSA : SigningMethod → Bool
  | .RS256 | .RS384 | .RS512 => true
  | _ => false

/-- The type assertion `method.(*jwt.SigningMethodHMAC)`. -/
def SigningMethod.isHMAC : SigningMethod → Bool
  | .HS256 | .HS384 | .HS512 => true
  | _ => false

/-- Key material handed to the library. -/
inductive Key where
  | rsaPrivate (k : String)
  | rsaPublic (k : String)
  | secret (bytes : String)
  deriving DecidableEq, Repr

/-- The interface `jwt.Claims`: a `jwt.MapClaims` or some other implementation. -/
inductive Claims where
  | mapClaims (m : MapClaims)
  | other
  deriving DecidableEq, Repr

/-- The type assertion `claims.(jwt.MapClaims)` in its two-result form. -/
def Claims.asMapClaims : Claims → MapClaims × Bool
  | .mapClaims m => (m, true)
  | .other => ([], false)

/-- The fields of `jwt.Token` that the package reads or writes. -/
structure Token where
  Header : MapClaims
  Method : SigningMethod
  Claims : Claims
  Valid : Bool
  deriving DecidableEq, Repr

/-- The function `jwt.NewWithClaims`. -/
def NewWithClaims (method : SigningMethod) (claims : MapClaims) : Token :=
  ⟨[("typ", .str "JWT"), ("alg", .str method.Alg)], method, .mapClaims claims, false⟩

/-- The statement `token.Claims.(jwt.MapClaims)[k] = v`. -/
def Token.setClaim (token : Token) (k : String) (v : Value) : Token :=
  ⟨token.Header, token.Method, .mapClaims (mapSet token.Claims.asMapClaims.1 k v), token.Valid⟩

/-- The loop `for k, v := range claims` with body `token.Claims.(jwt.MapClaims)[k] = v`,
run over the entries of `claims` in the order given. -/
def rangeCopy (token : Token) (claims : MapClaims) : Token :=
  claims.foldl (fun tok kv => tok.setClaim kv.1 kv.2) token

/-- The callback type `jwt.Keyfunc`. -/
abbrev Keyfunc := Token → Option Key × Option GoError

/-- The type of `jwt.Parse` as the package uses it: the token when the error is nil. -/
abbrev ParseFn := String → Keyfunc → Except GoError Token

/-- The type of `Token.SignedString`. -/
abbrev SignedStringFn := Token → Key → String × Option GoError

/-- The struct `RS256Signer`. -/
structure RS256Signer where
  privateKey : String
  publicKey : String
  deriving DecidableEq, Repr

/-- The struct `HS256Signer`. -/
structure HS256Signer where
  secret : String
  deriving DecidableEq, Repr

/-- The token that `RS256Signer.Sign` builds before signing (jwt.go lines 39-44). -/
def RS256Signer.signToken (now : Time) (claims : MapClaims) : Token :=
  rangeCopy (NewWithClaims .RS256 [("exp", .int (now.Add (Hour * 72)).Unix)]) claims

/-- The method `RS256Signer.Sign`; `now` is the reading of `time.Now()`. -/
def RS256Signer.Sign (signedString : SignedStringFn) (s : RS256Signer) (now : Time)
    (claims : MapClaims) : String × Option GoError :=
  signedString (RS256Signer.signToken now claims) (.rsaPrivate s.privateKey)

/-- The token that `HS256Signer.Sign` builds before signing (jwt.go lines 74-79). -/
def HS256Signer.signToken (now : Time) (claims : MapClaims) : Token :=
  rangeCopy (NewWithClaims .HS256 [("exp", .int (now.Add (Hour * 72)).Unix)]) claims

/-- The method `HS256Signer.Sign`; `now` is the reading of `time.Now()`. -/
def HS256Signer.Sign (signedString : SignedStringFn) (s : HS256Signer) (now : Time)
    (claims : MapClaims) : String × Option GoError :=
  signedString (HS256Signer.signToken now claims) (.secret s.secret)

/-- The key function that `RS256Signer.Verify` passes to `jwt.Parse`. -/
def RS256Signer.keyfunc (s : RS256Signer) : Keyfunc := fun token =>
  if !token.Method.isRSA then (none, some (.errorsNew "unexpected signing method"))
  else (some (.rsaPublic s.publicKey), none)

/-- The key function that `HS256Signer.Verify` passes to `jwt.Parse`. -/
def HS256Signer.keyfunc (s : HS256Signer) : Keyfunc := fun token =>
  if !token.Method.isHMAC then (none, some (.errorsNew "unexpected signing method"))
  else (some (.secret s.secret), none)

/-- The statements of `Verify` after the call of `jwt.Parse` (the same in both signers). -/
def verifyParsed : Except GoError Token → Option MapClaims × Option GoError
  | .error err => (none, some err)
  | .ok token =>
    let (claims, ok) := token.Claims.asMapClaims
    if !ok || !token.Valid then (none, some (.errorsNew "invalid token"))
    else (some claims, none)

/-- The method `RS256Signer.Verify`. -/
def RS256Signer.Verify (parse : ParseFn) (s : RS256Signer) (tokenString : String) :
    Option MapClaims × Option GoError :=
  verifyParsed (parse tokenString s.keyfunc)

/-- The method `HS256Signer.Verify`. -/
def HS256Signer.Verify (parse : ParseFn) (s : HS256Signer) (tokenString : String) :
    Option MapClaims × Option GoError :=
  verifyParsed (parse tokenString s.keyfunc)

/-! ## The library behind `jwt.Parse`

`jwt.Parse` belongs to `github.com/golang-jwt/jwt/v5`, which is outside the
repository. `Verify` above takes it as a parameter. For the statements that
speak about what a token's header declares, the control flow of the library's
`Parser.ParseWithClaims` is written out below over its primitives (segment
decoding, signature check, claims validation), which stay parameters. -/

/-- The primitives of the token library. -/
structure JwtLib where
  /-- The method `Parser.ParseUnverified`: the decoded token, the signing text
  and the raw signature segment. -/
  ParseUnverified : String → Except GoError (Token × String × String)
  /-- The method `Parser.DecodeSegment`. -/
  DecodeSegment : String → Except GoError String
  /-- The method `SigningMethod.Verify` applied to text, signature and key. -/
  MethodVerify : SigningMethod → String → String → Option Key → Option GoError
  /-- The method `Validator.Validate` at the given reading of the clock. -/
  Validate : Claims → Time → Option GoError
  /-- The method `Token.SignedString`. -/
  SignedString : SignedStringFn

/-- The control flow of `jwt.Parse` (v5 `Parser.ParseWithClaims` with default options);
`now` is the reading of `time.Now()` used by the validator. -/
def jwtParse (lib : JwtLib) (now : Time) : ParseFn := fun tokenString keyFunc =>
  match lib.ParseUnverified tokenString with
  | .error err => .error err
  | .ok (token, text, segment) =>
    match lib.DecodeSegment segment with
    | .error err => .error (.jwtWrap "could not base64 decode signature" .ErrTokenMalformed err)
    | .ok signature =>
      match keyFunc token with
      | (_, some err) => .error (.jwtWrap "error while executing keyfunc" .ErrTokenUnverifiable err)
      | (key, none) =>
        match lib.MethodVerify token.Method text signature key with
        | some err => .error (.jwtWrap "" .ErrTokenSignatureInvalid err)
        | none =>
          match lib.Validate token.Claims now with
          | some err => .error (.jwtWrap "" .ErrTokenInvalidClaims err)
          | none => .ok ⟨token.Header, token.Method, token.Claims, true⟩

/-! ## user.go, userrepo.go, hash.go, auth.go -/

/-- The interface `AuthUser`, as the results of its three accessors. -/
structure AuthUser where
  GetID : String
  GetUsername : String
  GetPasswordHash : String
  deriving DecidableEq, Repr

/-- The interface `UserRepository`; a nil `AuthUser` is `none`. -/
structure UserRepository (σ : Type) where
  FindByUsername : String → σ → (Option AuthUser × Option GoError) × σ
  CreateUser : String → String → σ → (Option AuthUser × Option GoError) × σ

/-- The interface `JWTSigner`. -/
structure JWTSigner (σ : Type) where
  Sign : MapClaims → σ → (String × Option GoError) × σ
  Verify : String → σ → (Option MapClaims × Option GoError) × σ

/-- The function type `ClaimsCustomizer`. The claim mapping is passed by
reference, so the customizer also yields the mapping as it left it. -/
abbrev ClaimsCustomizer (σ : Type) := AuthUser → MapClaims → σ → (MapClaims × Option GoError) × σ

/-- The two functions of `golang.org/x/crypto/bcrypt` that the package calls.
Their errors are kept apart from errors made elsewhere. -/
structure Bcrypt (σ : Type) where
  GenerateFromPassword : String → Nat → σ → (String × Option String) × σ
  CompareHashAndPassword : String → String → Option String

/-- The function `HashPassword`. -/
def HashPassword {σ : Type} (b : Bcrypt σ) (password : String) (w : σ) :
    (String × Option GoError) × σ :=
  let r := b.GenerateFromPassword password 12 w
  ((r.1.1, r.1.2.map GoError.bcrypt), r.2)

/-- The function `CheckPasswordHash`. -/
def CheckPasswordHash {σ : Type} (b : Bcrypt σ) (hash password : String) : Option GoError :=
  (b.CompareHashAndPassword hash password).map GoError.bcrypt

/-- The struct `AuthService`; a nil customizer is `none`. -/
structure AuthService (σ : Type) where
  repo : UserRepository σ
  signer : JWTSigner σ
  claimsCustomizer : Option (ClaimsCustomizer σ)

/-- The function `NewAuthService`. -/
def NewAuthService {σ : Type} (repo : UserRepository σ) (signer : JWTSigner σ)
    (customizer : Option (ClaimsCustomizer σ)) : AuthService σ :=
  ⟨repo, signer, customizer⟩

/-- A call made by a service operation to a collaborator or to the hasher. -/
inductive Call where
  | HashPassword (password : String)
  | CheckPasswordHash (hash password : String)
  | FindByUsername (username : String)
  | CreateUser (username hashedPassword : String)
  | ClaimsCustomizer (user : AuthUser) (claims : MapClaims)
  | Sign (claims : MapClaims)
  | Verify (tokenString : String)
  deriving DecidableEq, Repr

/-- How a Go call ends: with its results, or in a run-time panic. -/
inductive Outcome (α : Type) where
  | returned (v : α)
  | panicked
  deriving DecidableEq, Repr

/-- What a service operation leaves behind: its outcome, the world after it,
and the calls it made, in order. -/
structure Run (σ α : Type) where
  result : α
  world : σ
  calls : List Call
  deriving DecidableEq, Repr

/-- The method `AuthService.Signup`. -/
def AuthService.Signup {σ : Type} (b : Bcrypt σ) (a : AuthService σ) (username password : String)
    (w : σ) : Run σ (Option AuthUser × Option GoError) :=
  let h := HashPassword b password w
  match h.1.2 with
  | some err => ⟨(none, some err), h.2, [.HashPassword password]⟩
  | none =>
    let c := a.repo.CreateUser username h.1.1 h.2
    ⟨c.1, c.2, [.HashPassword password, .CreateUser username h.1.1]⟩

/-- The method `AuthService.Login`. Calling an accessor of a nil user panics. -/
def AuthService.Login {σ : Type} (b : Bcrypt σ) (a : AuthService σ) (username password : String)
    (w : σ) : Run σ (Outcome (String × Option GoError)) :=
  let f := a.repo.FindByUsername username w
  match f.1.2 with
  | some err => ⟨.returned ("", some err), f.2, [.FindByUsername username]⟩
  | none =>
    match f.1.1 with
    | none => ⟨.panicked, f.2, [.FindByUsername username]⟩
    | some user =>
      match CheckPasswordHash b user.GetPasswordHash password with
      | some _ =>
        ⟨.returned ("", some (.errorsNew "invalid password")), f.2,
          [.FindByUsername username, .CheckPasswordHash user.GetPasswordHash password]⟩
      | none =>
        let claims : MapClaims := [("sub", .str user.GetID), ("username", .str user.GetUsername)]
        match a.claimsCustomizer with
        | some customizer =>
          let c := customizer user claims f.2
          match c.1.2 with
          | some err =>
            ⟨.returned ("", some err), c.2,
              [.FindByUsername username, .CheckPasswordHash user.GetPasswordHash password,
                .ClaimsCustomizer user claims]⟩
          | none =>
            let s := a.signer.Sign c.1.1 c.2
            ⟨.returned s.1, s.2,
              [.FindByUsername username, .CheckPasswordHash user.GetPasswordHash password,
                .ClaimsCustomizer user claims, .Sign c.1.1]⟩
        | none =>
          let s := a.signer.Sign claims f.2
          ⟨.returned s.1, s.2,
            [.FindByUsername username, .CheckPasswordHash user.GetPasswordHash password,
              .Sign claims]⟩

/-- The method `AuthService.VerifyToken`. -/
def AuthService.VerifyToken {σ : Type} (a : AuthService σ) (tokenString : String) (w : σ) :
    Run σ (Option MapClaims × Option GoError) :=
  let v := a.signer.Verify tokenString w
  ⟨v.1, v.2, [.Verify tokenString]⟩

/-! ## Readable views of tokens and call lists -/

/-- The claim mapping carried by a token. -/
def Token.mapClaims (token : Token) : MapClaims := token.Claims.asMapClaims.1

/-- Whether a call is a call of `Signer.Sign`. -/
def Call.isSign : Call → Bool
  | .Sign _ => true
  | _ => false

/-- Whether a call is a call of the claims customizer. -/
def Call.isCustomizer : Call → Bool
  | .ClaimsCustomizer _ _ => true
  | _ => false

/-- Whether a call is a call of `CheckPasswordHash`. -/
def Call.isCheck : Call → Bool
  | .CheckPasswordHash _ _ => true
  | _ => false

/-- Whether a call is a call of `Repository.CreateUser`. -/
def Call.isCreateUser : Call → Bool
  | .CreateUser _ _ => true
  | _ => false

/-- A sign/verify round trip without faults for one token: signing succeeds,
the signed string decodes to the same token, and its signature checks out
under the verification key. -/
def IntactRoundTrip (lib : JwtLib) (signKey verifyKey : Key) (token : Token) : Prop :=
  ∃ text segment signature,
    (lib.SignedString token signKey).2 = none ∧
    lib.ParseUnverified (lib.SignedString token signKey).1 = .ok (token, text, segment) ∧
    lib.DecodeSegment segment = .ok signature ∧
    lib.MethodVerify token.Method text signature (some verifyKey) = none

/-- Whether the `exp` of a claim mapping lets it pass at the instant `t`: the key
is absent, or its value is a number of seconds that is zero or later than `t`. -/
def expTimely (m : MapClaims) (t : Time) : Bool :=
  match mapGet m "exp" with
  | none => true
  | some (.int n) => decide (n = 0) || decide (t.ns < n * 1000000000)
  | some _ => false

/-- Whether the `nbf` of a claim mapping lets it pass at the instant `t`: the key
is absent, or its value is a number of seconds that is zero or not later than `t`. -/
def nbfTimely (m : MapClaims) (t : Time) : Bool :=
  match mapGet m "nbf" with
  | none => true
  | some (.int n) => decide (n = 0) || decide (n * 1000000000 ≤ t.ns)
  | some _ => false

/-- The validator accepts every claim mapping whose `exp` and `nbf` let it pass. -/
def AcceptsTimelyClaims (lib : JwtLib) : Prop :=
  ∀ (m : MapClaims) (t : Time),
    expTimely m t = true → nbfTimely m t = true → lib.Validate (.mapClaims m) t = none

/-! ## Concrete inputs -/

/-- A signing instant: 1700000000 seconds after the epoch. -/
def demoNow : Time := ⟨1700000000000000000⟩

/-- A verification instant one hour after `demoNow`. -/
def demoLater : Time := ⟨1700003600000000000⟩

/-- A caller claim set without an `exp` key. -/
def demoClaims : MapClaims := [("sub", .str "id-alice"), ("username", .str "alice")]

/-- A caller claim set that brings its own `exp` (1 January 2100). -/
def demoClaimsWithExp : MapClaims := [("sub", .str "id-alice"), ("exp", .int 4102444800)]

/-- A caller claim set whose own `exp` is long past (one second after the epoch). -/
def demoClaimsExpired : MapClaims := [("exp", .int 1)]

/-- A caller claim set that is not to be used before 1 January 2100. -/
def demoClaimsNotYet : MapClaims := [("sub", .str "id-alice"), ("nbf", .int 4102444800)]

/-- An asymmetric signer. -/
def demoRS : RS256Signer := ⟨"private-key", "public-key"⟩

/-- A shared-secret signer. -/
def demoHS : HS256Signer := ⟨"shared-secret"⟩

/-- The token strings known to `demoLib`, each with the token it decodes to. -/
def demoIssued : List (String × Token) :=
  [("token-rs", RS256Signer.signToken demoNow demoClaims),
   ("token-hs", HS256Signer.signToken demoNow demoClaims),
   ("token-es", NewWithClaims .ES256 demoClaims),
   ("token-rs-old", RS256Signer.signToken demoNow demoClaimsExpired),
   ("token-hs-old", HS256Signer.signToken demoNow demoClaimsExpired),
   ("token-rs-2100", RS256Signer.signToken demoNow demoClaimsWithExp),
   ("token-hs-2100", HS256Signer.signToken demoNow demoClaimsWithExp),
   ("token-rs-nbf", RS256Signer.signToken demoNow demoClaimsNotYet),
   ("token-hs-nbf", HS256Signer.signToken demoNow demoClaimsNotYet)]

/-- Lookup of a token string among issued tokens. -/
def issuedGet : List (String × Token) → String → Option Token
  | [], _ => none
  | (name, token) :: rest, s => if name = s then some token else issuedGet rest s

/-- Lookup of the string issued for a token. -/
def issuedName : List (String × Token) → Token → Option String
  | [], _ => none
  | (name, token) :: rest, t => if token = t then some name else issuedName rest t

/-- The check of `nbf` in the stand-in validator. -/
def demoValidateNbf (m : MapClaims) (t : Time) : Option GoError :=
  match mapGet m "nbf" with
  | none => none
  | some (.int n) =>
    if n = 0 ∨ n * 1000000000 ≤ t.ns then none
    else some (.jwt "token is not valid yet" .ErrTokenNotValidYet)
  | some _ => some (.jwt "nbf is invalid" .ErrInvalidType)

/-- The stand-in validator, after the library's default validation of a claim
mapping: an absent or zero `exp` never expires, any other `exp` must be later
than the clock, and an `nbf` other than zero must not be later than the clock.
It reports the first check that fails. -/
def demoValidate (m : MapClaims) (t : Time) : Option GoError :=
  match mapGet m "exp" with
  | none => demoValidateNbf m t
  | some (.int n) =>
    if n = 0 ∨ t.ns < n * 1000000000 then demoValidateNbf m t
    else some (.jwt "token is expired" .ErrTokenExpired)
  | some _ => some (.jwt "exp is invalid" .ErrInvalidType)

/-- A small stand-in for the token library: it knows the strings of `demoIssued`,
checks that the key fits the method family, and validates `exp` and `nbf`
against the clock. -/
def demoLib : JwtLib :=
  ⟨fun s => match issuedGet demoIssued s with
      | some token => .ok (token, s, "signature")
      | none => .error (.jwt "token contains an invalid number of segments" .ErrTokenMalformed),
   fun segment => .ok segment,
   fun method _ _ key => match key with
      | some (.rsaPublic _) =>
        if method.isRSA then none else some (.jwt "key is of invalid type" .ErrInvalidKeyType)
      | some (.secret _) =>
        if method.isHMAC then none else some (.jwt "key is of invalid type" .ErrInvalidKeyType)
      | _ => some (.jwt "key is of invalid type" .ErrInvalidKeyType),
   fun claims t => match claims with
      | .mapClaims m => demoValidate m t
      | .other => none,
   fun token _ => match issuedName demoIssued token with
      | some name => (name, none)
      | none => ("", some (.jwt "key is invalid" .ErrInvalidKeyType))⟩

/-- The world of the concrete service: the stored users. -/
abbrev DemoWorld := List AuthUser

/-- A stand-in for bcrypt: passwords longer than 72 characters are refused, and a
stored hash shorter than 7 characters is malformed. -/
def demoBcrypt : Bcrypt DemoWorld :=
  ⟨fun password _ w =>
      if password.length > 72 then (("", some "bcrypt: password length exceeds 72 bytes"), w)
      else (("bcrypt:" ++ password, none), w),
   fun hash password =>
      if hash.length < 7 then some "crypto/bcrypt: hashedSecret too short to be a bcrypted password"
      else if hash = "bcrypt:" ++ password then none
      else some "crypto/bcrypt: hashedPassword is not the hash of the given password"⟩

/-- Lookup of a stored user by name. -/
def findUser : List AuthUser → String → Option AuthUser
  | [], _ => none
  | u :: rest, name => if u.GetUsername = name then some u else findUser rest name

/-- A repository over the list of stored users. -/
def demoRepo : UserRepository DemoWorld :=
  ⟨fun username w => match findUser w username with
      | some u => ((some u, none), w)
      | none => ((none, some (.host "user not found")), w),
   fun username hashedPassword w => match findUser w username with
      | some _ => ((none, some (.host "username already taken")), w)
      | none =>
        ((some ⟨"id-" ++ username, username, hashedPassword⟩, none),
          w ++ [⟨"id-" ++ username, username, hashedPassword⟩])⟩

/-- The asymmetric signer `demoRS` behind the `JWTSigner` interface, signing at
`demoNow` and verifying at `demoLater`. -/
def demoSigner : JWTSigner DemoWorld :=
  ⟨fun claims w => (RS256Signer.Sign demoLib.SignedString demoRS demoNow claims, w),
   fun tokenString w => (RS256Signer.Verify (jwtParse demoLib demoLater) demoRS tokenString, w)⟩

/-- Stored users: alice with the password "secret1", carol with a malformed hash. -/
def demoWorld : DemoWorld :=
  [⟨"id-alice", "alice", "bcrypt:secret1"⟩, ⟨"id-carol", "carol", "bad"⟩]

/-- A customizer that leaves the claim mapping as it is. -/
def demoNoopCustomizer : ClaimsCustomizer DemoWorld := fun _ claims w => ((claims, none), w)

/-- A customizer that replaces `sub`. -/
def demoOverwritingCustomizer : ClaimsCustomizer DemoWorld := fun _ claims w =>
  ((mapSet claims "sub" (.str "id-root"), none), w)

/-- A customizer that refuses the login. -/
def demoRejectingCustomizer : ClaimsCustomizer DemoWorld := fun _ claims w =>
  ((claims, some (.host "account locked")), w)

/-- A password of 73 characters. -/
def demoLongPassword : String :=
  "0123456789012345678901234567890123456789012345678901234567890123456789012"

/-! ## Theorems -/

theorem mapGet_mapSet_self (m : MapClaims) (k : String) (v : Value) :
    mapGet (mapSet m k v) k = some v := by
  induction m with
  | nil => simp [mapSet, mapGet]
  | cons hd tl ih =>
    obtain ⟨k0, v0⟩ := hd
    by_cases h : k0 = k
    · simp [mapSet, mapGet, h]
    · simp [mapSet, mapGet, h, ih]

theorem mapGet_mapSet_ne (m : MapClaims) (k j : String) (v : Value) (h : k ≠ j) :
    mapGet (mapSet m k v) j = mapGet m j := by
  induction m with
  | nil => simp [mapSet, mapGet, h]
  | cons hd tl ih =>
    obtain ⟨k0, v0⟩ := hd
    by_cases h0 : k0 = k
    · subst h0
      simp [mapSet, mapGet, h]
    · by_cases h1 : k0 = j
      · subst h1
        simp [mapSet, mapGet, h0]
      · simp [mapSet, mapGet, h0, h1, ih]

theorem mapGet_eq_none_of_not_mem (m : MapClaims) (k : String) (h : k ∉ mapKeys m) :
    mapGet m k = none := by
  induction m with
  | nil => rfl
  | cons hd tl ih =>
    obtain ⟨k0, v0⟩ := hd
    simp only [mapKeys, List.map_cons, List.mem_cons, not_or] at h
    have h0 : ¬ k0 = k := fun e => h.1 e.symm
    simp only [mapGet, h0, if_false]
    exact ih h.2

/-- Copying the entries of `C` over `base`: a key that `C` lacks keeps the value of `base`. -/
theorem mapGet_foldl_of_absent (C base : MapClaims) (k : String) (h : mapGet C k = none) :
    mapGet (C.foldl (fun m kv => mapSet m kv.1 kv.2) base) k = mapGet base k := by
  induction C generalizing base with
  | nil => rfl
  | cons hd tl ih =>
    obtain ⟨k0, v0⟩ := hd
    by_cases h0 : k0 = k
    · simp [mapGet, h0] at h
    · simp only [mapGet, h0, if_false] at h
      simp only [List.foldl_cons]
      rw [ih _ h, mapGet_mapSet_ne _ _ _ _ h0]

/-- Copying the entries of `C` over `base`: a key of `C` ends with the value `C` has for it. -/
theorem mapGet_foldl_of_present (C base : MapClaims) (k : String) (v : Value)
    (hC : (mapKeys C).Nodup) (h : mapGet C k = some v) :
    mapGet (C.foldl (fun m kv => mapSet m kv.1 kv.2) base) k = some v := by
  induction C generalizing base with
  | nil => simp [mapGet] at h
  | cons hd tl ih =>
    obtain ⟨k0, v0⟩ := hd
    simp only [mapKeys, List.map_cons, List.nodup_cons] at hC
    simp only [List.foldl_cons]
    by_cases h0 : k0 = k
    · subst h0
      simp only [mapGet, if_true, Option.some.injEq] at h
      subst h
      rw [mapGet_foldl_of_absent _ _ _ (mapGet_eq_none_of_not_mem tl k0 hC.1)]
      exact mapGet_mapSet_self _ _ _
    · simp only [mapGet, h0, if_false] at h
      exact ih _ hC.2 h

theorem rangeCopy_fields (token : Token) (C m : MapClaims) (h : token.Claims = .mapClaims m) :
    (rangeCopy token C).Claims = .mapClaims (C.foldl (fun m kv => mapSet m kv.1 kv.2) m) ∧
      (rangeCopy token C).Method = token.Method ∧
      (rangeCopy token C).Header = token.Header ∧
      (rangeCopy token C).Valid = token.Valid := by
  induction C generalizing token m with
  | nil => exact ⟨h, rfl, rfl, rfl⟩
  | cons hd tl ih =>
    have hstep : (token.setClaim hd.1 hd.2).Claims = .mapClaims (mapSet m hd.1 hd.2) := by
      simp [Token.setClaim, h, Claims.asMapClaims]
    have := ih (token.setClaim hd.1 hd.2) (mapSet m hd.1 hd.2) hstep
    simpa [rangeCopy, Token.setClaim] using this

theorem unix_add_72h (now : Time) : (now.Add (Hour * 72)).Unix = now.Unix + 259200 := by
  simp only [Time.Unix, Time.Add, Hour]
  omega

theorem rs_signToken_fields (now : Time) (C : MapClaims) :
    (RS256Signer.signToken now C).Claims = .mapClaims
        (C.foldl (fun m kv => mapSet m kv.1 kv.2) [("exp", .int (now.Unix + 259200))]) ∧
      (RS256Signer.signToken now C).Method = .RS256 := by
  have h := rangeCopy_fields (NewWithClaims .RS256 [("exp", .int (now.Add (Hour * 72)).Unix)]) C
    [("exp", .int (now.Add (Hour * 72)).Unix)] rfl
  unfold RS256Signer.signToken
  rw [unix_add_72h] at h ⊢
  exact ⟨h.1, h.2.1⟩

theorem hs_signToken_fields (now : Time) (C : MapClaims) :
    (HS256Signer.signToken now C).Claims = .mapClaims
        (C.foldl (fun m kv => mapSet m kv.1 kv.2) [("exp", .int (now.Unix + 259200))]) ∧
      (HS256Signer.signToken now C).Method = .HS256 := by
  have h := rangeCopy_fields (NewWithClaims .HS256 [("exp", .int (now.Add (Hour * 72)).Unix)]) C
    [("exp", .int (now.Add (Hour * 72)).Unix)] rfl
  unfold HS256Signer.signToken
  rw [unix_add_72h] at h ⊢
  exact ⟨h.1, h.2.1⟩

/-- The value of `exp` after copying `C` over the fresh base mapping. -/
theorem exp_after_copy (n : Int) (C : MapClaims) (hC : (mapKeys C).Nodup) :
    mapGet (C.foldl (fun m kv => mapSet m kv.1 kv.2) [("exp", .int n)]) "exp" =
      some ((mapGet C "exp").getD (.int n)) := by
  cases h : mapGet C "exp" with
  | none => rw [mapGet_foldl_of_absent _ _ _ h]; simp [mapGet]
  | some v => rw [mapGet_foldl_of_present _ _ _ _ hC h]; rfl

theorem rs_signToken_mapClaims (now : Time) (C : MapClaims) :
    (RS256Signer.signToken now C).mapClaims =
      C.foldl (fun m kv => mapSet m kv.1 kv.2) [("exp", .int (now.Unix + 259200))] := by
  simp [Token.mapClaims, (rs_signToken_fields now C).1, Claims.asMapClaims]

theorem hs_signToken_mapClaims (now : Time) (C : MapClaims) :
    (HS256Signer.signToken now C).mapClaims =
      C.foldl (fun m kv => mapSet m kv.1 kv.2) [("exp", .int (now.Unix + 259200))] := by
  simp [Token.mapClaims, (hs_signToken_fields now C).1, Claims.asMapClaims]

/-! ### C1: the `exp` of the signed claim set -/

/-- C1, refuted as stated: signing at `demoNow` a caller claim set that brings
its own `exp` (4102444800), both signers sign a claim set whose `exp` is the
caller value, not the signing time plus 259200 seconds. -/
theorem sign_keeps_caller_exp :
    mapGet (RS256Signer.signToken demoNow demoClaimsWithExp).mapClaims "exp"
        = some (.int 4102444800) ∧
      mapGet (HS256Signer.signToken demoNow demoClaimsWithExp).mapClaims "exp"
        = some (.int 4102444800) ∧
      demoNow.Unix + 259200 = 1700259200 ∧
      mapGet (RS256Signer.signToken demoNow demoClaimsWithExp).mapClaims "exp"
        ≠ some (.int (demoNow.Unix + 259200)) ∧
      mapGet (HS256Signer.signToken demoNow demoClaimsWithExp).mapClaims "exp"
        ≠ some (.int (demoNow.Unix + 259200)) := by
  decide

/-- C1 (amended): for both signers, every caller claim set `C` and every signing
time `now`, `Sign` hands to `SignedString` the token built from `C`, and the
`exp` of that token is the value `C` has under `exp` when `C` has that key, and
the Unix seconds of `now` plus 259200 (72 hours) otherwise. -/
theorem sign_exp_caller_else_fresh (signedString : SignedStringFn) (rs : RS256Signer)
    (hs : HS256Signer) (now : Time) (C : MapClaims) (hC : (mapKeys C).Nodup) :
    (RS256Signer.Sign signedString rs now C
        = signedString (RS256Signer.signToken now C) (.rsaPrivate rs.privateKey) ∧
      mapGet (RS256Signer.signToken now C).mapClaims "exp"
        = some ((mapGet C "exp").getD (.int (now.Unix + 259200)))) ∧
    (HS256Signer.Sign signedString hs now C
        = signedString (HS256Signer.signToken now C) (.secret hs.secret) ∧
      mapGet (HS256Signer.signToken now C).mapClaims "exp"
        = some ((mapGet C "exp").getD (.int (now.Unix + 259200)))) := by
  refine ⟨⟨rfl, ?_⟩, ⟨rfl, ?_⟩⟩
  · rw [rs_signToken_mapClaims]; exact exp_after_copy _ C hC
  · rw [hs_signToken_mapClaims]; exact exp_after_copy _ C hC

/-- C1 (amended), at concrete inputs: without a caller `exp` the signed `exp` is
1700259200, the signing time plus 72 hours. -/
theorem sign_exp_caller_else_fresh_witness :
    (mapKeys demoClaims).Nodup ∧
      mapGet (RS256Signer.signToken demoNow demoClaims).mapClaims "exp"
        = some (.int 1700259200) ∧
      mapGet (HS256Signer.signToken demoNow demoClaims).mapClaims "exp"
        = some (.int 1700259200) :=
  ⟨by decide,
   (sign_exp_caller_else_fresh demoLib.SignedString demoRS demoHS demoNow demoClaims
      (by decide)).1.2.trans (by decide),
   (sign_exp_caller_else_fresh demoLib.SignedString demoRS demoHS demoNow demoClaims
      (by decide)).2.2.trans (by decide)⟩

/-! ### C2: tokens of a foreign algorithm family -/

/-- C2: when the header of a token string declares a signing method outside the
RSA family, the key function of `RS256Signer.Verify` fails without handing out
the public key, and `RS256Signer.Verify` returns an error and no claim mapping;
likewise for `HS256Signer.Verify` and methods outside the HMAC family. -/
theorem verify_rejects_foreign_family (lib : JwtLib) (now : Time) (rs : RS256Signer)
    (hs : HS256Signer) (tokenString : String) (token : Token) (text segment : String)
    (hparse : lib.ParseUnverified tokenString = .ok (token, text, segment)) :
    (token.Method.isRSA = false →
      rs.keyfunc token = (none, some (.errorsNew "unexpected signing method")) ∧
      ∃ e, RS256Signer.Verify (jwtParse lib now) rs tokenString = (none, some e)) ∧
    (token.Method.isHMAC = false →
      hs.keyfunc token = (none, some (.errorsNew "unexpected signing method")) ∧
      ∃ e, HS256Signer.Verify (jwtParse lib now) hs tokenString = (none, some e)) := by
  constructor
  · intro hm
    have hk : rs.keyfunc token = (none, some (.errorsNew "unexpected signing method")) := by
      simp [RS256Signer.keyfunc, hm]
    refine ⟨hk, ?_⟩
    unfold RS256Signer.Verify jwtParse
    simp only [hparse]
    cases hd : lib.DecodeSegment segment with
    | error e => exact ⟨_, rfl⟩
    | ok signature => simp only [hk]; exact ⟨_, rfl⟩
  · intro hm
    have hk : hs.keyfunc token = (none, some (.errorsNew "unexpected signing method")) := by
      simp [HS256Signer.keyfunc, hm]
    refine ⟨hk, ?_⟩
    unfold HS256Signer.Verify jwtParse
    simp only [hparse]
    cases hd : lib.DecodeSegment segment with
    | error e => exact ⟨_, rfl⟩
    | ok signature => simp only [hk]; exact ⟨_, rfl⟩

/-- C2, at concrete inputs: the asymmetric signer rejects a token declaring HS256
and the shared-secret signer rejects a token declaring RS256. -/
theorem verify_rejects_foreign_family_witness :
    (demoLib.ParseUnverified "token-hs"
        = .ok (HS256Signer.signToken demoNow demoClaims, "token-hs", "signature") ∧
      (HS256Signer.signToken demoNow demoClaims).Method.isRSA = false ∧
      ∃ e, RS256Signer.Verify (jwtParse demoLib demoLater) demoRS "token-hs" = (none, some e)) ∧
    (demoLib.ParseUnverified "token-rs"
        = .ok (RS256Signer.signToken demoNow demoClaims, "token-rs", "signature") ∧
      (RS256Signer.signToken demoNow demoClaims).Method.isHMAC = false ∧
      ∃ e, HS256Signer.Verify (jwtParse demoLib demoLater) demoHS "token-rs" = (none, some e)) :=
  ⟨⟨rfl, by decide,
    ((verify_rejects_foreign_family demoLib demoLater demoRS demoHS "token-hs"
      (HS256Signer.signToken demoNow demoClaims) "token-hs" "signature" rfl).1
        (by decide)).2⟩,
   ⟨rfl, by decide,
    ((verify_rejects_foreign_family demoLib demoLater demoRS demoHS "token-rs"
      (RS256Signer.signToken demoNow demoClaims) "token-rs" "signature" rfl).2
        (by decide)).2⟩⟩

/-! ### C3: the error of a failing `Verify` -/

/-- C3, refuted as stated: on a token of the wrong family and on a malformed
token string `RS256Signer.Verify` fails with two different errors, neither of
which is the error "invalid token"; the same holds for `HS256Signer.Verify`. -/
theorem verify_errors_differ :
    RS256Signer.Verify (jwtParse demoLib demoLater) demoRS "token-hs"
      = (none, some (.jwtWrap "error while executing keyfunc" .ErrTokenUnverifiable
          (.errorsNew "unexpected signing method"))) ∧
    RS256Signer.Verify (jwtParse demoLib demoLater) demoRS "not-a-token"
      = (none, some (.jwt "token contains an invalid number of segments" .ErrTokenMalformed)) ∧
    (RS256Signer.Verify (jwtParse demoLib demoLater) demoRS "token-hs").2
      ≠ (RS256Signer.Verify (jwtParse demoLib demoLater) demoRS "not-a-token").2 ∧
    (RS256Signer.Verify (jwtParse demoLib demoLater) demoRS "token-hs").2
      ≠ some (.errorsNew "invalid token") ∧
    (HS256Signer.Verify (jwtParse demoLib demoLater) demoHS "token-rs").2
      ≠ (HS256Signer.Verify (jwtParse demoLib demoLater) demoHS "not-a-token").2 ∧
    (HS256Signer.Verify (jwtParse demoLib demoLater) demoHS "token-rs").2
      ≠ some (.errorsNew "invalid token") := by
  decide

/-- What the statements after `jwt.Parse` make of its result, for an error `e`. -/
theorem verifyParsed_error_iff (r : Except GoError Token) (e : GoError) :
    ((verifyParsed r).2 = some e ↔
      (r = .error e ∨
        ∃ token, r = .ok token ∧
          (token.Claims.asMapClaims.2 = false ∨ token.Valid = false) ∧
          e = .errorsNew "invalid token")) ∧
    ((verifyParsed r).2 = some e → (verifyParsed r).1 = none) := by
  cases r with
  | error err =>
    constructor
    · constructor
      · intro h
        simp only [verifyParsed, Option.some.injEq] at h
        exact Or.inl (by rw [h])
      · rintro (h | ⟨token, h, _⟩)
        · simp only [Except.error.injEq] at h
          simp [verifyParsed, h]
        · cases h
    · intro _; rfl
  | ok token =>
    by_cases hv : (!token.Claims.asMapClaims.2 || !token.Valid) = true
    · have h1 : verifyParsed (.ok token) = (none, some (.errorsNew "invalid token")) := by
        simp only [verifyParsed, hv, if_true]
      have hcond : token.Claims.asMapClaims.2 = false ∨ token.Valid = false := by
        simpa using hv
      rw [h1]
      constructor
      · constructor
        · intro h
          simp only [Option.some.injEq] at h
          exact Or.inr ⟨token, rfl, hcond, h.symm⟩
        · rintro (h | ⟨_, _, _, h⟩)
          · cases h
          · rw [h]
      · intro _; rfl
    · have h1 : verifyParsed (.ok token) = (some token.Claims.asMapClaims.1, none) := by
        simp only [verifyParsed, hv]
        rfl
      have hcond : ¬ (token.Claims.asMapClaims.2 = false ∨ token.Valid = false) := by
        simpa using hv
      rw [h1]
      constructor
      · constructor
        · intro h
          cases h
        · rintro (h | ⟨token2, h, hc, _⟩)
          · cases h
          · simp only [Except.ok.injEq] at h
            subst h
            exact absurd hc hcond
      · intro h
        cases h

/-- C3 (amended): for both signers and whatever `jwt.Parse` does, a call of
`Verify` returns an error `e` exactly when the parse reported `e`, which is
then returned unchanged, or the parse reported no error, the token it returned
is not valid or its claims are not a `MapClaims`, and `e` is the error "invalid
token"; a call that returns an error returns no claim mapping. -/
theorem verify_error_is_parse_error_or_invalid_token (parse : ParseFn) (rs : RS256Signer)
    (hs : HS256Signer) (tokenString : String) (e : GoError) :
    (((RS256Signer.Verify parse rs tokenString).2 = some e ↔
        (parse tokenString rs.keyfunc = .error e ∨
          ∃ token, parse tokenString rs.keyfunc = .ok token ∧
            (token.Claims.asMapClaims.2 = false ∨ token.Valid = false) ∧
            e = .errorsNew "invalid token")) ∧
      ((RS256Signer.Verify parse rs tokenString).2 = some e →
        (RS256Signer.Verify parse rs tokenString).1 = none)) ∧
    (((HS256Signer.Verify parse hs tokenString).2 = some e ↔
        (parse tokenString hs.keyfunc = .error e ∨
          ∃ token, parse tokenString hs.keyfunc = .ok token ∧
            (token.Claims.asMapClaims.2 = false ∨ token.Valid = false) ∧
            e = .errorsNew "invalid token")) ∧
      ((HS256Signer.Verify parse hs tokenString).2 = some e →
        (HS256Signer.Verify parse hs tokenString).1 = none)) :=
  ⟨verifyParsed_error_iff _ e, verifyParsed_error_iff _ e⟩

/-- C3 (amended), at concrete inputs: for a token of the wrong family each
signer returns no claim mapping, and the error it returns is the one the parse
reported. -/
theorem verify_error_is_parse_error_or_invalid_token_witness :
    (RS256Signer.Verify (jwtParse demoLib demoLater) demoRS "token-hs").2
        = some (.jwtWrap "error while executing keyfunc" .ErrTokenUnverifiable
            (.errorsNew "unexpected signing method")) ∧
      (HS256Signer.Verify (jwtParse demoLib demoLater) demoHS "token-rs").2
        = some (.jwtWrap "error while executing keyfunc" .ErrTokenUnverifiable
            (.errorsNew "unexpected signing method")) ∧
      (RS256Signer.Verify (jwtParse demoLib demoLater) demoRS "token-hs").1 = none ∧
      (HS256Signer.Verify (jwtParse demoLib demoLater) demoHS "token-rs").1 = none ∧
      jwtParse demoLib demoLater "token-hs" demoRS.keyfunc
        = .error (.jwtWrap "error while executing keyfunc" .ErrTokenUnverifiable
            (.errorsNew "unexpected signing method")) :=
  ⟨by decide, by decide,
   (verify_error_is_parse_error_or_invalid_token (jwtParse demoLib demoLater) demoRS demoHS
      "token-hs" (.jwtWrap "error while executing keyfunc" .ErrTokenUnverifiable
        (.errorsNew "unexpected signing method"))).1.2 (by decide),
   (verify_error_is_parse_error_or_invalid_token (jwtParse demoLib demoLater) demoRS demoHS
      "token-rs" (.jwtWrap "error while executing keyfunc" .ErrTokenUnverifiable
        (.errorsNew "unexpected signing method"))).2.2 (by decide),
   ((verify_error_is_parse_error_or_invalid_token (jwtParse demoLib demoLater) demoRS demoHS
      "token-hs" (.jwtWrap "error while executing keyfunc" .ErrTokenUnverifiable
        (.errorsNew "unexpected signing method"))).1.1.mp (by decide)).resolve_right
      (by rintro ⟨token, h, _⟩; cases h)⟩

/-! ### C4: what `Sign` builds, and the round trip through `Verify` -/

/-- When every step of the library succeeds, `jwt.Parse` returns the decoded
token marked valid. -/
theorem jwtParse_ok (lib : JwtLib) (now : Time) (tokenString : String) (keyFunc : Keyfunc)
    (token : Token) (text segment signature : String) (key : Key)
    (hp : lib.ParseUnverified tokenString = .ok (token, text, segment))
    (hd : lib.DecodeSegment segment = .ok signature)
    (hk : keyFunc token = (some key, none))
    (hv : lib.MethodVerify token.Method text signature (some key) = none)
    (hval : lib.Validate token.Claims now = none) :
    jwtParse lib now tokenString keyFunc
      = .ok ⟨token.Header, token.Method, token.Claims, true⟩ := by
  unfold jwtParse
  simp only [hp, hd, hk, hv, hval]

theorem demoLib_acceptsTimelyClaims : AcceptsTimelyClaims demoLib := by
  intro m t hexp hnbf
  have hn : demoValidateNbf m t = none := by
    unfold nbfTimely at hnbf
    unfold demoValidateNbf
    cases h : mapGet m "nbf" with
    | none => rfl
    | some v =>
      rw [h] at hnbf
      cases v with
      | int n =>
        have hc : n = 0 ∨ n * 1000000000 ≤ t.ns := by simpa using hnbf
        simp only [hc, if_true]
      | str _ => simp at hnbf
      | bool _ => simp at hnbf
      | null => simp at hnbf
  show demoValidate m t = none
  unfold expTimely at hexp
  unfold demoValidate
  cases h : mapGet m "exp" with
  | none => exact hn
  | some v =>
    rw [h] at hexp
    cases v with
    | int n =>
      have hc : n = 0 ∨ t.ns < n * 1000000000 := by simpa using hexp
      simp only [hc, if_true]
      exact hn
    | str _ => simp at hexp
    | bool _ => simp at hexp
    | null => simp at hexp

/-- What copying the caller entries `C` over the base mapping with the fresh
`exp` of `n` seconds leaves in the mapping. -/
theorem copy_over_fresh_exp (n : Int) (C : MapClaims) (later : Time)
    (hC : (mapKeys C).Nodup) :
    (∀ k v, mapGet C k = some v →
      mapGet (C.foldl (fun m kv => mapSet m kv.1 kv.2) [("exp", .int n)]) k = some v) ∧
    (∃ v, mapGet (C.foldl (fun m kv => mapSet m kv.1 kv.2) [("exp", .int n)]) "exp" = some v) ∧
    mapGet (C.foldl (fun m kv => mapSet m kv.1 kv.2) [("exp", .int n)]) "nbf"
      = mapGet C "nbf" ∧
    (mapGet C "exp" = none →
      mapGet (C.foldl (fun m kv => mapSet m kv.1 kv.2) [("exp", .int n)]) "exp"
        = some (.int n)) ∧
    (mapGet C "exp" = none → mapGet C "nbf" = none → later.Unix < n →
      expTimely (C.foldl (fun m kv => mapSet m kv.1 kv.2) [("exp", .int n)]) later = true ∧
      nbfTimely (C.foldl (fun m kv => mapSet m kv.1 kv.2) [("exp", .int n)]) later = true) := by
  have hnbf : mapGet (C.foldl (fun m kv => mapSet m kv.1 kv.2) [("exp", .int n)]) "nbf"
      = mapGet C "nbf" := by
    cases h : mapGet C "nbf" with
    | none =>
      rw [mapGet_foldl_of_absent _ _ _ h]
      have hne : ¬ ("exp" = "nbf") := by decide
      simp [mapGet, hne]
    | some v => exact mapGet_foldl_of_present _ _ _ _ hC h
  have hexp : mapGet C "exp" = none →
      mapGet (C.foldl (fun m kv => mapSet m kv.1 kv.2) [("exp", .int n)]) "exp"
        = some (.int n) := by
    intro h
    rw [exp_after_copy _ C hC, h]
    rfl
  refine ⟨fun k v hk => mapGet_foldl_of_present _ _ _ _ hC hk, ?_, hnbf, hexp, ?_⟩
  · rw [exp_after_copy _ C hC]
    exact ⟨_, rfl⟩
  · intro h1 h2 hlt
    constructor
    · unfold expTimely
      rw [hexp h1]
      have : later.ns < n * 1000000000 := by
        simp only [Time.Unix] at hlt
        omega
      simp [this]
    · unfold nbfTimely
      rw [hnbf, h2]

/-- C4, refuted as stated: signing at `demoNow` a caller claim set whose own
`exp` is 1, both signers build a claim set whose `exp` is 1, outside the window
from the signing time to 72 hours later, and `Verify` of the signed token fails
as expired already at the signing time; a caller `nbf` in the year 2100 also
makes `Verify` of the freshly signed token fail. -/
theorem sign_caller_exp_outside_window :
    mapGet (RS256Signer.signToken demoNow demoClaimsExpired).mapClaims "exp" = some (.int 1) ∧
    mapGet (HS256Signer.signToken demoNow demoClaimsExpired).mapClaims "exp" = some (.int 1) ∧
    ¬ (demoNow.Unix ≤ 1 ∧ 1 ≤ demoNow.Unix + 259200) ∧
    RS256Signer.Sign demoLib.SignedString demoRS demoNow demoClaimsExpired
      = ("token-rs-old", none) ∧
    RS256Signer.Verify (jwtParse demoLib demoNow) demoRS "token-rs-old"
      = (none, some (.jwtWrap "" .ErrTokenInvalidClaims
          (.jwt "token is expired" .ErrTokenExpired))) ∧
    HS256Signer.Sign demoLib.SignedString demoHS demoNow demoClaimsExpired
      = ("token-hs-old", none) ∧
    HS256Signer.Verify (jwtParse demoLib demoNow) demoHS "token-hs-old"
      = (none, some (.jwtWrap "" .ErrTokenInvalidClaims
          (.jwt "token is expired" .ErrTokenExpired))) ∧
    RS256Signer.Sign demoLib.SignedString demoRS demoNow demoClaimsNotYet
      = ("token-rs-nbf", none) ∧
    RS256Signer.Verify (jwtParse demoLib demoNow) demoRS "token-rs-nbf"
      = (none, some (.jwtWrap "" .ErrTokenInvalidClaims
          (.jwt "token is not valid yet" .ErrTokenNotValidYet))) := by
  decide

/-- C4 (amended): for both signers, every caller claim set `C` and every signing
time `now`, the claim set built by `Sign` holds every key of `C` with the value
`C` has for it, and an `exp` key; when `C` has no `exp` key of its own, that
`exp` is a number of seconds between `now` and `now` plus 72 hours. With an
intact sign/verify round trip and a validator that accepts timely claims,
`Verify` of the signed token succeeds and returns the claim set that was built
at every instant at which the `exp` and the `nbf` of that claim set let it
pass; when `C` has neither `exp` nor `nbf`, these are all instants before `now`
plus 72 hours. -/
theorem sign_verify_round_trip (lib : JwtLib) (rs : RS256Signer) (hs : HS256Signer)
    (now later : Time) (C : MapClaims) (hC : (mapKeys C).Nodup) :
    ((∀ k v, mapGet C k = some v →
        mapGet (RS256Signer.signToken now C).mapClaims k = some v) ∧
      (∃ v, mapGet (RS256Signer.signToken now C).mapClaims "exp" = some v) ∧
      (mapGet C "exp" = none →
        ∃ n, mapGet (RS256Signer.signToken now C).mapClaims "exp" = some (.int n) ∧
          now.Unix ≤ n ∧ n ≤ now.Unix + 259200) ∧
      (IntactRoundTrip lib (.rsaPrivate rs.privateKey) (.rsaPublic rs.publicKey)
          (RS256Signer.signToken now C) →
        AcceptsTimelyClaims lib →
        expTimely (RS256Signer.signToken now C).mapClaims later = true →
        nbfTimely (RS256Signer.signToken now C).mapClaims later = true →
        RS256Signer.Verify (jwtParse lib later) rs
            (RS256Signer.Sign lib.SignedString rs now C).1
          = (some (RS256Signer.signToken now C).mapClaims, none)) ∧
      (mapGet C "exp" = none → mapGet C "nbf" = none → later.Unix < now.Unix + 259200 →
        expTimely (RS256Signer.signToken now C).mapClaims later = true ∧
        nbfTimely (RS256Signer.signToken now C).mapClaims later = true)) ∧
    ((∀ k v, mapGet C k = some v →
        mapGet (HS256Signer.signToken now C).mapClaims k = some v) ∧
      (∃ v, mapGet (HS256Signer.signToken now C).mapClaims "exp" = some v) ∧
      (mapGet C "exp" = none →
        ∃ n, mapGet (HS256Signer.signToken now C).mapClaims "exp" = some (.int n) ∧
          now.Unix ≤ n ∧ n ≤ now.Unix + 259200) ∧
      (IntactRoundTrip lib (.secret hs.secret) (.secret hs.secret)
          (HS256Signer.signToken now C) →
        AcceptsTimelyClaims lib →
        expTimely (HS256Signer.signToken now C).mapClaims later = true →
        nbfTimely (HS256Signer.signToken now C).mapClaims later = true →
        HS256Signer.Verify (jwtParse lib later) hs
            (HS256Signer.Sign lib.SignedString hs now C).1
          = (some (HS256Signer.signToken now C).mapClaims, none)) ∧
      (mapGet C "exp" = none → mapGet C "nbf" = none → later.Unix < now.Unix + 259200 →
        expTimely (HS256Signer.signToken now C).mapClaims later = true ∧
        nbfTimely (HS256Signer.signToken now C).mapClaims later = true)) := by
  have hcopy := copy_over_fresh_exp (now.Unix + 259200) C later hC
  constructor
  · have hf := rs_signToken_fields now C
    have hclaims : (RS256Signer.signToken now C).Claims
        = .mapClaims (RS256Signer.signToken now C).mapClaims := by
      rw [rs_signToken_mapClaims]; exact hf.1
    rw [rs_signToken_mapClaims]
    refine ⟨hcopy.1, hcopy.2.1, ?_, ?_, hcopy.2.2.2.2⟩
    · intro hexp
      exact ⟨_, hcopy.2.2.2.1 hexp, by omega, le_refl _⟩
    · rintro ⟨text, segment, signature, _, hp, hd, hv⟩ hacc hexpT hnbfT
      have hk : rs.keyfunc (RS256Signer.signToken now C)
          = (some (.rsaPublic rs.publicKey), none) := by
        simp [RS256Signer.keyfunc, hf.2, SigningMethod.isRSA]
      have hval : lib.Validate (RS256Signer.signToken now C).Claims later = none := by
        rw [hclaims, rs_signToken_mapClaims]; exact hacc _ _ hexpT hnbfT
      have hparse := jwtParse_ok lib later _ rs.keyfunc _ text segment signature _ hp hd hk hv hval
      unfold RS256Signer.Verify RS256Signer.Sign
      rw [hparse, hclaims, rs_signToken_mapClaims]
      rfl
  · have hf := hs_signToken_fields now C
    have hclaims : (HS256Signer.signToken now C).Claims
        = .mapClaims (HS256Signer.signToken now C).mapClaims := by
      rw [hs_signToken_mapClaims]; exact hf.1
    rw [hs_signToken_mapClaims]
    refine ⟨hcopy.1, hcopy.2.1, ?_, ?_, hcopy.2.2.2.2⟩
    · intro hexp
      exact ⟨_, hcopy.2.2.2.1 hexp, by omega, le_refl _⟩
    · rintro ⟨text, segment, signature, _, hp, hd, hv⟩ hacc hexpT hnbfT
      have hk : hs.keyfunc (HS256Signer.signToken now C)
          = (some (.secret hs.secret), none) := by
        simp [HS256Signer.keyfunc, hf.2, SigningMethod.isHMAC]
      have hval : lib.Validate (HS256Signer.signToken now C).Claims later = none := by
        rw [hclaims, hs_signToken_mapClaims]; exact hacc _ _ hexpT hnbfT
      have hparse := jwtParse_ok lib later _ hs.keyfunc _ text segment signature _ hp hd hk hv hval
      unfold HS256Signer.Verify HS256Signer.Sign
      rw [hparse, hclaims, hs_signToken_mapClaims]
      rfl

/-- C4 (amended), at concrete inputs: a token signed at `demoNow` verifies one
hour later and the returned mapping is the one that was built, for a claim set
without `exp` under either signer and for a claim set that brings an `exp` in
the year 2100. -/
theorem sign_verify_round_trip_witness :
    (mapKeys demoClaims).Nodup ∧ mapGet demoClaims "exp" = none ∧
    mapGet demoClaims "nbf" = none ∧
    IntactRoundTrip demoLib (.rsaPrivate demoRS.privateKey) (.rsaPublic demoRS.publicKey)
      (RS256Signer.signToken demoNow demoClaims) ∧
    IntactRoundTrip demoLib (.secret demoHS.secret) (.secret demoHS.secret)
      (HS256Signer.signToken demoNow demoClaims) ∧
    AcceptsTimelyClaims demoLib ∧ demoLater.Unix < demoNow.Unix + 259200 ∧
    RS256Signer.Verify (jwtParse demoLib demoLater) demoRS
        (RS256Signer.Sign demoLib.SignedString demoRS demoNow demoClaims).1
      = (some (RS256Signer.signToken demoNow demoClaims).mapClaims, none) ∧
    HS256Signer.Verify (jwtParse demoLib demoLater) demoHS
        (HS256Signer.Sign demoLib.SignedString demoHS demoNow demoClaims).1
      = (some (HS256Signer.signToken demoNow demoClaims).mapClaims, none) ∧
    (mapKeys demoClaimsWithExp).Nodup ∧
    expTimely (RS256Signer.signToken demoNow demoClaimsWithExp).mapClaims demoLater = true ∧
    nbfTimely (RS256Signer.signToken demoNow demoClaimsWithExp).mapClaims demoLater = true ∧
    RS256Signer.Verify (jwtParse demoLib demoLater) demoRS
        (RS256Signer.Sign demoLib.SignedString demoRS demoNow demoClaimsWithExp).1
      = (some (RS256Signer.signToken demoNow demoClaimsWithExp).mapClaims, none) :=
  ⟨by decide, by decide, by decide,
   ⟨"token-rs", "signature", "signature", by decide, rfl, rfl, by decide⟩,
   ⟨"token-hs", "signature", "signature", by decide, rfl, rfl, by decide⟩,
   demoLib_acceptsTimelyClaims, by decide,
   (sign_verify_round_trip demoLib demoRS demoHS demoNow demoLater demoClaims
      (by decide)).1.2.2.2.1
        ⟨"token-rs", "signature", "signature", by decide, rfl, rfl, by decide⟩
        demoLib_acceptsTimelyClaims
        ((sign_verify_round_trip demoLib demoRS demoHS demoNow demoLater demoClaims
          (by decide)).1.2.2.2.2 (by decide) (by decide) (by decide)).1
        ((sign_verify_round_trip demoLib demoRS demoHS demoNow demoLater demoClaims
          (by decide)).1.2.2.2.2 (by decide) (by decide) (by decide)).2,
   (sign_verify_round_trip demoLib demoRS demoHS demoNow demoLater demoClaims
      (by decide)).2.2.2.2.1
        ⟨"token-hs", "signature", "signature", by decide, rfl, rfl, by decide⟩
        demoLib_acceptsTimelyClaims
        ((sign_verify_round_trip demoLib demoRS demoHS demoNow demoLater demoClaims
          (by decide)).2.2.2.2.2 (by decide) (by decide) (by decide)).1
        ((sign_verify_round_trip demoLib demoRS demoHS demoNow demoLater demoClaims
          (by decide)).2.2.2.2.2 (by decide) (by decide) (by decide)).2,
   by decide, by decide, by decide,
   (sign_verify_round_trip demoLib demoRS demoHS demoNow demoLater demoClaimsWithExp
      (by decide)).1.2.2.2.1
        ⟨"token-rs-2100", "signature", "signature", by decide, rfl, rfl, by decide⟩
        demoLib_acceptsTimelyClaims (by decide) (by decide)⟩

/-! ### C5: a failed password check -/

/-- C5: when the user is found and the stored password check fails with any
hasher error `e`, `Login` returns the empty token and the error "invalid
password", which is not `e`; it calls the repository and the password check
only, so neither the customizer nor `Signer.Sign` is invoked. -/
theorem login_password_mismatch {σ : Type} (b : Bcrypt σ) (a : AuthService σ)
    (username password : String) (w w1 : σ) (user : AuthUser) (e : GoError)
    (hfind : a.repo.FindByUsername username w = ((some user, none), w1))
    (hcheck : CheckPasswordHash b user.GetPasswordHash password = some e) :
    AuthService.Login b a username password w
      = ⟨.returned ("", some (.errorsNew "invalid password")), w1,
          [.FindByUsername username, .CheckPasswordHash user.GetPasswordHash password]⟩ ∧
    GoError.errorsNew "invalid password" ≠ e ∧
    (AuthService.Login b a username password w).calls.any Call.isCustomizer = false ∧
    (AuthService.Login b a username password w).calls.any Call.isSign = false := by
  have hlogin : AuthService.Login b a username password w
      = ⟨.returned ("", some (.errorsNew "invalid password")), w1,
          [.FindByUsername username, .CheckPasswordHash user.GetPasswordHash password]⟩ := by
    unfold AuthService.Login
    simp only [hfind, hcheck]
  refine ⟨hlogin, ?_, ?_, ?_⟩
  · intro h
    subst h
    unfold CheckPasswordHash at hcheck
    cases hc : b.CompareHashAndPassword user.GetPasswordHash password with
    | none => simp [hc] at hcheck
    | some msg => simp [hc] at hcheck
  · rw [hlogin]; rfl
  · rw [hlogin]; rfl

/-- C5, at concrete inputs: a wrong password for alice and a malformed stored
hash for carol make the hasher fail with different errors, and `Login` answers
both with the same error. -/
theorem login_password_mismatch_witness :
    CheckPasswordHash demoBcrypt "bcrypt:secret1" "wrong"
      = some (.bcrypt "crypto/bcrypt: hashedPassword is not the hash of the given password") ∧
    CheckPasswordHash demoBcrypt "bad" "secret1"
      = some (.bcrypt "crypto/bcrypt: hashedSecret too short to be a bcrypted password") ∧
    AuthService.Login demoBcrypt ⟨demoRepo, demoSigner, some demoNoopCustomizer⟩
        "alice" "wrong" demoWorld
      = ⟨.returned ("", some (.errorsNew "invalid password")), demoWorld,
          [.FindByUsername "alice", .CheckPasswordHash "bcrypt:secret1" "wrong"]⟩ ∧
    AuthService.Login demoBcrypt ⟨demoRepo, demoSigner, some demoNoopCustomizer⟩
        "carol" "secret1" demoWorld
      = ⟨.returned ("", some (.errorsNew "invalid password")), demoWorld,
          [.FindByUsername "carol", .CheckPasswordHash "bad" "secret1"]⟩ :=
  ⟨by decide, by decide,
   (login_password_mismatch demoBcrypt ⟨demoRepo, demoSigner, some demoNoopCustomizer⟩
      "alice" "wrong" demoWorld demoWorld ⟨"id-alice", "alice", "bcrypt:secret1"⟩
      (.bcrypt "crypto/bcrypt: hashedPassword is not the hash of the given password")
      (by decide) (by decide)).1,
   (login_password_mismatch demoBcrypt ⟨demoRepo, demoSigner, some demoNoopCustomizer⟩
      "carol" "secret1" demoWorld demoWorld ⟨"id-carol", "carol", "bad"⟩
      (.bcrypt "crypto/bcrypt: hashedSecret too short to be a bcrypted password")
      (by decide) (by decide)).1⟩

/-! ### C6: a failed lookup -/

/-- C6: when `Repository.FindByUsername` returns an error `e`, `Login` returns
the empty token and exactly `e`, and its only call is the lookup: the password
check, the customizer and `Signer.Sign` are not invoked. -/
theorem login_lookup_error {σ : Type} (b : Bcrypt σ) (a : AuthService σ)
    (username password : String) (w w1 : σ) (found : Option AuthUser) (e : GoError)
    (hfind : a.repo.FindByUsername username w = ((found, some e), w1)) :
    AuthService.Login b a username password w
      = ⟨.returned ("", some e), w1, [.FindByUsername username]⟩ ∧
    (AuthService.Login b a username password w).calls.any Call.isCheck = false ∧
    (AuthService.Login b a username password w).calls.any Call.isCustomizer = false ∧
    (AuthService.Login b a username password w).calls.any Call.isSign = false := by
  have hlogin : AuthService.Login b a username password w
      = ⟨.returned ("", some e), w1, [.FindByUsername username]⟩ := by
    unfold AuthService.Login
    simp only [hfind]
  refine ⟨hlogin, ?_, ?_, ?_⟩ <;> rw [hlogin] <;> rfl

/-- C6, at concrete inputs: bob is not registered. -/
theorem login_lookup_error_witness :
    demoRepo.FindByUsername "bob" demoWorld
      = ((none, some (.host "user not found")), demoWorld) ∧
    AuthService.Login demoBcrypt ⟨demoRepo, demoSigner, some demoNoopCustomizer⟩
        "bob" "anything" demoWorld
      = ⟨.returned ("", some (.host "user not found")), demoWorld, [.FindByUsername "bob"]⟩ :=
  ⟨by decide,
   (login_lookup_error demoBcrypt ⟨demoRepo, demoSigner, some demoNoopCustomizer⟩
      "bob" "anything" demoWorld demoWorld none (.host "user not found") (by decide)).1⟩

/-! ### C7: the claim set handed to the signer -/

/-- C7, refuted as stated: with a customizer that replaces `sub`, the claim set
that `Login` hands to `Signer.Sign` for alice has `sub` equal to "id-root", not
to alice's identity "id-alice". -/
theorem login_customizer_replaces_sub :
    (AuthService.Login demoBcrypt ⟨demoRepo, demoSigner, some demoOverwritingCustomizer⟩
        "alice" "secret1" demoWorld).calls
      = [.FindByUsername "alice", .CheckPasswordHash "bcrypt:secret1" "secret1",
          .ClaimsCustomizer ⟨"id-alice", "alice", "bcrypt:secret1"⟩
            [("sub", .str "id-alice"), ("username", .str "alice")],
          .Sign [("sub", .str "id-root"), ("username", .str "alice")]] ∧
    mapGet [("sub", .str "id-root"), ("username", .str "alice")] "sub"
      ≠ some (.str "id-alice") := by
  decide

/-- C7 (amended): for every `Login` in which the user is found and the password
check passes, the mapping built by `Login` has `sub` equal to the user's
`GetID()` and `username` equal to the user's `GetUsername()`. With no
customizer exactly that two-entry mapping is handed to `Signer.Sign`; with a
customizer that returns no error, the mapping as the customizer left it is
handed to `Signer.Sign`. In both cases `Login` returns the token and error of
`Signer.Sign` unchanged. -/
theorem login_hands_claims_to_signer {σ : Type} (b : Bcrypt σ) (a : AuthService σ)
    (username password : String) (w w1 : σ) (user : AuthUser)
    (hfind : a.repo.FindByUsername username w = ((some user, none), w1))
    (hcheck : CheckPasswordHash b user.GetPasswordHash password = none) :
    mapGet [("sub", .str user.GetID), ("username", .str user.GetUsername)] "sub"
      = some (.str user.GetID) ∧
    mapGet [("sub", .str user.GetID), ("username", .str user.GetUsername)] "username"
      = some (.str user.GetUsername) ∧
    (a.claimsCustomizer = none →
      AuthService.Login b a username password w
        = ⟨.returned
            (a.signer.Sign [("sub", .str user.GetID), ("username", .str user.GetUsername)] w1).1,
          (a.signer.Sign [("sub", .str user.GetID), ("username", .str user.GetUsername)] w1).2,
          [.FindByUsername username, .CheckPasswordHash user.GetPasswordHash password,
            .Sign [("sub", .str user.GetID), ("username", .str user.GetUsername)]]⟩) ∧
    (∀ (customizer : ClaimsCustomizer σ) (left : MapClaims) (w2 : σ),
      a.claimsCustomizer = some customizer →
      customizer user [("sub", .str user.GetID), ("username", .str user.GetUsername)] w1
        = ((left, none), w2) →
      AuthService.Login b a username password w
        = ⟨.returned (a.signer.Sign left w2).1, (a.signer.Sign left w2).2,
          [.FindByUsername username, .CheckPasswordHash user.GetPasswordHash password,
            .ClaimsCustomizer user
              [("sub", .str user.GetID), ("username", .str user.GetUsername)],
            .Sign left]⟩) := by
  refine ⟨by simp [mapGet], ?_, ?_, ?_⟩
  · have hne : ¬ ("sub" = "username") := by decide
    simp [mapGet, hne]
  · intro hnone
    unfold AuthService.Login
    simp only [hfind, hcheck, hnone]
  · intro customizer left w2 hsome hleft
    unfold AuthService.Login
    simp only [hfind, hcheck, hsome, hleft]

/-- C7 (amended), at concrete inputs: alice logs in without a customizer and
with one that replaces `sub`. -/
theorem login_hands_claims_to_signer_witness :
    demoRepo.FindByUsername "alice" demoWorld
      = ((some ⟨"id-alice", "alice", "bcrypt:secret1"⟩, none), demoWorld) ∧
    CheckPasswordHash demoBcrypt "bcrypt:secret1" "secret1" = none ∧
    AuthService.Login demoBcrypt ⟨demoRepo, demoSigner, none⟩ "alice" "secret1" demoWorld
      = ⟨.returned ("token-rs", none), demoWorld,
          [.FindByUsername "alice", .CheckPasswordHash "bcrypt:secret1" "secret1",
            .Sign [("sub", .str "id-alice"), ("username", .str "alice")]]⟩ ∧
    (AuthService.Login demoBcrypt ⟨demoRepo, demoSigner, some demoOverwritingCustomizer⟩
        "alice" "secret1" demoWorld).result
      = .returned (demoSigner.Sign [("sub", .str "id-root"), ("username", .str "alice")]
          demoWorld).1 :=
  ⟨by decide, by decide,
   ((login_hands_claims_to_signer demoBcrypt ⟨demoRepo, demoSigner, none⟩ "alice" "secret1"
      demoWorld demoWorld ⟨"id-alice", "alice", "bcrypt:secret1"⟩ (by decide)
      (by decide)).2.2.1 rfl).trans (by decide),
   congrArg Run.result
    ((login_hands_claims_to_signer demoBcrypt
      ⟨demoRepo, demoSigner, some demoOverwritingCustomizer⟩ "alice" "secret1"
      demoWorld demoWorld ⟨"id-alice", "alice", "bcrypt:secret1"⟩ (by decide)
      (by decide)).2.2.2 demoOverwritingCustomizer
        [("sub", .str "id-root"), ("username", .str "alice")] demoWorld rfl (by decide))⟩

/-! ### C8: a customizer that fails -/

/-- C8: when lookup and password check succeed and the customizer returns an
error `e`, `Login` returns the empty token and exactly `e`; the customizer was
called with a mapping that holds `sub` and `username`, and `Signer.Sign` is not
invoked. -/
theorem login_customizer_error {σ : Type} (b : Bcrypt σ) (a : AuthService σ)
    (username password : String) (w w1 w2 : σ) (user : AuthUser)
    (customizer : ClaimsCustomizer σ) (left : MapClaims) (e : GoError)
    (hfind : a.repo.FindByUsername username w = ((some user, none), w1))
    (hcheck : CheckPasswordHash b user.GetPasswordHash password = none)
    (hsome : a.claimsCustomizer = some customizer)
    (hleft : customizer user [("sub", .str user.GetID), ("username", .str user.GetUsername)] w1
      = ((left, some e), w2)) :
    AuthService.Login b a username password w
      = ⟨.returned ("", some e), w2,
          [.FindByUsername username, .CheckPasswordHash user.GetPasswordHash password,
            .ClaimsCustomizer user
              [("sub", .str user.GetID), ("username", .str user.GetUsername)]]⟩ ∧
    (AuthService.Login b a username password w).calls.any Call.isSign = false ∧
    mapGet [("sub", .str user.GetID), ("username", .str user.GetUsername)] "sub"
      = some (.str user.GetID) ∧
    mapGet [("sub", .str user.GetID), ("username", .str user.GetUsername)] "username"
      = some (.str user.GetUsername) := by
  have hlogin : AuthService.Login b a username password w
      = ⟨.returned ("", some e), w2,
          [.FindByUsername username, .CheckPasswordHash user.GetPasswordHash password,
            .ClaimsCustomizer user
              [("sub", .str user.GetID), ("username", .str user.GetUsername)]]⟩ := by
    unfold AuthService.Login
    simp only [hfind, hcheck, hsome, hleft]
  refine ⟨hlogin, ?_, by simp [mapGet], ?_⟩
  · rw [hlogin]; rfl
  · have hne : ¬ ("sub" = "username") := by decide
    simp [mapGet, hne]

/-- C8, at concrete inputs: alice logs in against a customizer that refuses. -/
theorem login_customizer_error_witness :
    demoRepo.FindByUsername "alice" demoWorld
      = ((some ⟨"id-alice", "alice", "bcrypt:secret1"⟩, none), demoWorld) ∧
    CheckPasswordHash demoBcrypt "bcrypt:secret1" "secret1" = none ∧
    AuthService.Login demoBcrypt ⟨demoRepo, demoSigner, some demoRejectingCustomizer⟩
        "alice" "secret1" demoWorld
      = ⟨.returned ("", some (.host "account locked")), demoWorld,
          [.FindByUsername "alice", .CheckPasswordHash "bcrypt:secret1" "secret1",
            .ClaimsCustomizer ⟨"id-alice", "alice", "bcrypt:secret1"⟩
              [("sub", .str "id-alice"), ("username", .str "alice")]]⟩ :=
  ⟨by decide, by decide,
   (login_customizer_error demoBcrypt ⟨demoRepo, demoSigner, some demoRejectingCustomizer⟩
      "alice" "secret1" demoWorld demoWorld demoWorld ⟨"id-alice", "alice", "bcrypt:secret1"⟩
      demoRejectingCustomizer [("sub", .str "id-alice"), ("username", .str "alice")]
      (.host "account locked") (by decide) (by decide) rfl (by decide)).1⟩

/-! ### C9: Signup -/

/-- C9: when `HashPassword(password)` fails with an error `e`, `Signup` returns
no user and `e`, and `Repository.CreateUser` is not called; otherwise `Signup`
calls `Repository.CreateUser` once, with the given username and the hash that
`HashPassword` produced, and returns its user and error as they are. -/
theorem signup_hash_then_create {σ : Type} (b : Bcrypt σ) (a : AuthService σ)
    (username password : String) (w : σ) :
    (∀ (hash : String) (e : GoError) (w1 : σ),
      HashPassword b password w = ((hash, some e), w1) →
      AuthService.Signup b a username password w
          = ⟨(none, some e), w1, [.HashPassword password]⟩ ∧
        (AuthService.Signup b a username password w).calls.any Call.isCreateUser = false) ∧
    (∀ (hash : String) (w1 : σ),
      HashPassword b password w = ((hash, none), w1) →
      AuthService.Signup b a username password w
          = ⟨(a.repo.CreateUser username hash w1).1, (a.repo.CreateUser username hash w1).2,
              [.HashPassword password, .CreateUser username hash]⟩ ∧
        (AuthService.Signup b a username password w).calls.filter Call.isCreateUser
          = [.CreateUser username hash]) := by
  constructor
  · intro hash e w1 hh
    have hs : AuthService.Signup b a username password w
        = ⟨(none, some e), w1, [.HashPassword password]⟩ := by
      unfold AuthService.Signup
      simp only [hh]
    exact ⟨hs, by rw [hs]; rfl⟩
  · intro hash w1 hh
    have hs : AuthService.Signup b a username password w
        = ⟨(a.repo.CreateUser username hash w1).1, (a.repo.CreateUser username hash w1).2,
            [.HashPassword password, .CreateUser username hash]⟩ := by
      unfold AuthService.Signup
      simp only [hh]
    exact ⟨hs, by rw [hs]; rfl⟩

/-- C9, at concrete inputs: a password that the hasher refuses, and the signup of
bob, whose stored hash is not his password. -/
theorem signup_hash_then_create_witness :
    HashPassword demoBcrypt demoLongPassword demoWorld
      = (("", some (.bcrypt "bcrypt: password length exceeds 72 bytes")), demoWorld) ∧
    AuthService.Signup demoBcrypt ⟨demoRepo, demoSigner, none⟩ "bob" demoLongPassword demoWorld
      = ⟨(none, some (.bcrypt "bcrypt: password length exceeds 72 bytes")), demoWorld,
          [.HashPassword demoLongPassword]⟩ ∧
    HashPassword demoBcrypt "secret2" demoWorld = (("bcrypt:secret2", none), demoWorld) ∧
    AuthService.Signup demoBcrypt ⟨demoRepo, demoSigner, none⟩ "bob" "secret2" demoWorld
      = ⟨(some ⟨"id-bob", "bob", "bcrypt:secret2"⟩, none),
          demoWorld ++ [⟨"id-bob", "bob", "bcrypt:secret2"⟩],
          [.HashPassword "secret2", .CreateUser "bob" "bcrypt:secret2"]⟩ :=
  ⟨by decide,
   ((signup_hash_then_create demoBcrypt ⟨demoRepo, demoSigner, none⟩ "bob" demoLongPassword
      demoWorld).1 "" (.bcrypt "bcrypt: password length exceeds 72 bytes") demoWorld
        (by decide)).1,
   by decide,
   (((signup_hash_then_create demoBcrypt ⟨demoRepo, demoSigner, none⟩ "bob" "secret2"
      demoWorld).2 "bcrypt:secret2" demoWorld (by decide)).1).trans (by decide)⟩

/-! ### C10: no customizer -/

/-- C10: `Login` of a service built with no customizer returns the same token
and error, and leaves the same world, as `Login` of the service built with a
customizer that leaves the claim mapping unchanged and returns no error. -/
theorem login_nil_customizer_is_noop {σ : Type} (b : Bcrypt σ) (repo : UserRepository σ)
    (signer : JWTSigner σ) (customizer : ClaimsCustomizer σ) (username password : String)
    (w : σ) (hnoop : ∀ user claims w1, customizer user claims w1 = ((claims, none), w1)) :
    (AuthService.Login b (NewAuthService repo signer none) username password w).result
      = (AuthService.Login b (NewAuthService repo signer (some customizer))
          username password w).result ∧
    (AuthService.Login b (NewAuthService repo signer none) username password w).world
      = (AuthService.Login b (NewAuthService repo signer (some customizer))
          username password w).world := by
  unfold AuthService.Login NewAuthService
  simp only [hnoop]
  cases (repo.FindByUsername username w).1.2 with
  | some err => exact ⟨rfl, rfl⟩
  | none =>
    cases (repo.FindByUsername username w).1.1 with
    | none => exact ⟨rfl, rfl⟩
    | some user =>
      dsimp only
      cases CheckPasswordHash b user.GetPasswordHash password with
      | some e => exact ⟨rfl, rfl⟩
      | none => exact ⟨rfl, rfl⟩

/-- C10, at concrete inputs: alice logs in with no customizer and with the
customizer that does nothing. -/
theorem login_nil_customizer_is_noop_witness :
    (∀ user claims w1, demoNoopCustomizer user claims w1 = ((claims, none), w1)) ∧
    (AuthService.Login demoBcrypt (NewAuthService demoRepo demoSigner none)
        "alice" "secret1" demoWorld).result = .returned ("token-rs", none) ∧
    (AuthService.Login demoBcrypt (NewAuthService demoRepo demoSigner (some demoNoopCustomizer))
        "alice" "secret1" demoWorld).result = .returned ("token-rs", none) :=
  ⟨fun _ _ _ => rfl, by decide,
   ((login_nil_customizer_is_noop demoBcrypt demoRepo demoSigner demoNoopCustomizer
      "alice" "secret1" demoWorld (fun _ _ _ => rfl)).1).symm.trans (by decide)⟩

end Mjwtauth
